import Mathlib

/-!
# Redirect filter of the virtual-cluster proxy (`pkg/server/filters/redirect.go`)

A shallow embedding of `applies`, `callAdmissionWebhooks` and `WithRedirect`.

* Go strings are Lean `String`s; the only separator the filter splits and joins
  on is the single byte `/`, which never occurs inside a multi-byte UTF-8
  sequence, so splitting on characters and on bytes agree.
* The effects of one run of the handler closure (responses written,
  collaborator calls, the handler that finally serves the request) are
  recorded, in order, as a list of `Event`s.
* Collaborators whose code is not part of the filter (`translate.PhysicalName`,
  the parameter codec, the admission plugin, `handler.Handler`) are fields of
  `Env`, so every theorem holds for all of their possible behaviours.
-/

set_option autoImplicit false

namespace Redirect

/-! ## Data model -/

/-- Go `error` values the filter creates or receives. -/
inductive GoError where
  /-- An error built by `fmt.Errorf(msg)`. -/
  | errorf (msg : String)
  /-- An error built by `kerrors.NewBadRequest(reason)`, HTTP status 400. -/
  | badRequest (reason : String)
  /-- An error returned by a collaborator, identified by its text. -/
  | collaborator (text : String)
  deriving DecidableEq, Repr

/-- The fields of `request.RequestInfo` (k8s.io/apiserver). -/
structure RequestInfo where
  IsResourceRequest : Bool
  Path : String
  Verb : String
  APIGroup : String
  APIVersion : String
  Namespace : String
  Resource : String
  Subresource : String
  Name : String
  deriving DecidableEq, Repr

/-- The fields of `delegatingauthorizer.GroupVersionResourceVerb`: an embedded
`schema.GroupVersionResource` plus `Verb` and `SubResource`. -/
structure GroupVersionResourceVerb where
  Group : String
  Version : String
  Resource : String
  Verb : String
  SubResource : String
  deriving DecidableEq, Repr

/-- The parts of `*http.Request` the filter reads or writes. -/
structure Request where
  /-- Result of `request.RequestInfoFrom(req.Context())`; `none` when `ok` is false. -/
  info : Option RequestInfo
  /-- Result of `request.UserFrom(req.Context())`; `none` when absent. -/
  user : Option String
  /-- The field `req.URL.Path`. -/
  urlPath : String
  /-- The raw query behind `req.URL.Query()`. -/
  rawQuery : String
  /-- The map `req.Header`, as an association list from key to values. -/
  Header : List (String × List String)
  deriving DecidableEq, Repr

/-- The call `req.Header.Del(key)` for a key that is already in canonical MIME
form (as `"Authorization"` is): the entry under that key is removed. -/
def Request.HeaderDel (req : Request) (key : String) : Request :=
  { req with Header := req.Header.filter (fun kv => kv.1 != key) }

/-- The call `req.Header.Get(key)` for a canonical key: first value stored
under the key, `""` when there is none. -/
def Request.HeaderGet (req : Request) (key : String) : String :=
  match req.Header.find? (fun kv => kv.1 == key) with
  | some kv => kv.2.headD ""
  | none => ""

/-- The `admission.Operation` constants. -/
inductive Operation where
  | Create
  | Update
  | Delete
  | Connect
  deriving DecidableEq, Repr

/-- The arguments of `admission.NewAttributesRecord` as the filter fills them. -/
structure Attributes where
  /-- The decoded options object; `none` is the nil `runtime.Object`. -/
  object : Option String
  /-- The old object is always nil. -/
  oldObject : Option String
  /-- Kind within `corev1.SchemeGroupVersion`; `""` is the zero value. -/
  kind : String
  Namespace : String
  Name : String
  /-- Resource within `corev1.SchemeGroupVersion`. -/
  resource : String
  subresource : String
  operation : Operation
  dryRun : Bool
  userInfo : Option String
  deriving DecidableEq, Repr

/-- The `admission.Interface` value handed to `WithRedirect`. -/
structure Admission where
  /-- Method `Handles(operation)`. -/
  Handles : Operation → Bool
  /-- Method `Validate` when the value also implements
  `admission.ValidationInterface`; `none` when the type assertion fails.
  The result is the returned error, `none` for nil. -/
  Validate : Option (Attributes → Option GoError)

/-- What `WithRedirect` is constructed with, and the collaborators it calls. -/
structure Env where
  /-- Parameter `admit` of `WithRedirect`; `none` is the nil interface. -/
  admitter : Option Admission
  targetNamespace : String
  resources : List GroupVersionResourceVerb
  /-- The function `translate.PhysicalName(name, namespace)`. -/
  PhysicalName : String → String → String
  /-- The call `parameterCodec.DecodeParameters(query, corev1.SchemeGroupVersion, opts)`
  for `opts` of the given kind: the filled options object or the error. -/
  DecodeParameters : String → String → Except GoError String
  /-- Result of `handler.Handler("", localManager.GetConfig(), nil)`:
  `none` when the physical-cluster handler was built, else the error. -/
  HandlerErr : Option GoError

/-- Observable effects of one run of the handler closure, in order. -/
inductive Event where
  /-- The call `requestpkg.FailWithStatus(w, req, code, err)`. -/
  | failWithStatus (code : Nat) (err : GoError) (req : Request)
  /-- The call `responsewriters.ErrorNegotiated(err, s, corev1.SchemeGroupVersion, w, req)`. -/
  | errorNegotiated (err : GoError) (req : Request)
  /-- The call `admit.Handles(op)`. -/
  | admitHandles (op : Operation)
  /-- The call `parameterCodec.DecodeParameters` for the given kind. -/
  | decodeParameters (query : String) (kind : String)
  /-- The call `validatingAdmission.Validate` with these attributes. -/
  | admitValidate (attrs : Attributes)
  /-- The call `klog.Infof("Admission validate failed for %s: %v", path, err)`. -/
  | klogInfof (path : String) (err : GoError)
  /-- The call `h.ServeHTTP(w, req)` on the physical-cluster handler of line 69. -/
  | servePhysical (req : Request)
  /-- The call `h.ServeHTTP(w, req)` on the handler `WithRedirect` wraps. -/
  | serveWrapped (req : Request)
  /-- A Go run-time fault `index out of range [index] with length len`. -/
  | indexOutOfRange (index : Nat) (len : Nat)
  deriving DecidableEq, Repr

/-! ## `strings.Split` and `strings.Join` with separator `/` -/

/-- The substrings of `cs` between occurrences of `sep`; one more element than
there are separators, so a list without `sep` (also the empty one) gives one
element. -/
def splitChars (sep : Char) : List Char → List (List Char)
  | [] => [[]]
  | c :: cs =>
    if c = sep then [] :: splitChars sep cs
    else
      match splitChars sep cs with
      | [] => [[c]]
      | seg :: rest => (c :: seg) :: rest

/-- The concatenation of `segs` with `sep` between consecutive elements. -/
def joinChars (sep : Char) : List (List Char) → List Char
  | [] => []
  | [seg] => seg
  | seg :: rest => seg ++ sep :: joinChars sep rest

/-- The call `strings.Split(s, "/")`. -/
def stringsSplit (s : String) : List String :=
  (splitChars '/' s.data).map String.mk

/-- The call `strings.Join(elems, "/")`. -/
def stringsJoin (elems : List String) : String :=
  String.mk (joinChars '/' (elems.map String.data))

/-- Slice assignment `s[i] = v`: `none` is the index-out-of-range fault. -/
def sliceSet (s : List String) (i : Nat) (v : String) : Option (List String) :=
  if i < s.length then some (s.set i v) else none

/-! ## `applies` (lines 127–139) -/

/-- The test of line 133 for one rule. -/
def ruleMatches (r : RequestInfo) (gv : GroupVersionResourceVerb) : Bool :=
  (gv.Group == "*" || gv.Group == r.APIGroup) &&
  (gv.Version == "*" || gv.Version == r.APIVersion) &&
  (gv.Resource == "*" || gv.Resource == r.Resource) &&
  (gv.Verb == "*" || gv.Verb == r.Verb) &&
  (gv.SubResource == "*" || gv.SubResource == r.Subresource)

/-- The `for ... range resources` loop of lines 132–138. -/
def appliesLoop (r : RequestInfo) : List GroupVersionResourceVerb → Bool
  | [] => false
  | gv :: rest => if ruleMatches r gv then true else appliesLoop r rest

/-- The function `applies(r, resources)`. -/
def applies (r : RequestInfo) (resources : List GroupVersionResourceVerb) : Bool :=
  if r.IsResourceRequest == false then false
  else appliesLoop r resources

/-! ## `callAdmissionWebhooks` (lines 84–125) -/

/-- Lines 94–114: the kind chosen for the sub-resource, with the name of the
options type decoded; `none` when no branch of the `if` chain is taken, which
leaves `kind` and `opts` at their zero values. -/
def connectKind (subresource : String) : Option String :=
  if subresource == "exec" then some "PodExecOptions"
  else if subresource == "attach" then some "PodAttachOptions"
  else if subresource == "portforward" then some "PodPortForwardOptions"
  else none

/-- The `admission.NewAttributesRecord(...)` value of line 116. -/
def connectAttributes (req : Request) (info : RequestInfo) (opts : Option String)
    (kind : String) : Attributes :=
  { object := opts, oldObject := none, kind := kind, Namespace := info.Namespace,
    Name := info.Name, resource := info.Resource, subresource := info.Subresource,
    operation := Operation.Connect, dryRun := false, userInfo := req.user }

/-- Lines 116–121: the validation call and the handling of its result. -/
def validateConnect (validate : Attributes → Option GoError) (info : RequestInfo)
    (attrs : Attributes) : List Event × Option GoError :=
  match validate attrs with
  | some err => ([Event.admitValidate attrs, Event.klogInfof info.Path err], some err)
  | none => ([Event.admitValidate attrs], none)

/-- The function `callAdmissionWebhooks`: the collaborator calls it makes, and
the error it returns (`none` for nil). -/
def callAdmissionWebhooks (env : Env) (req : Request) (info : RequestInfo) :
    List Event × Option GoError :=
  if info.Resource != "pods" then ([], none)
  else if info.Subresource != "exec" && info.Subresource != "portforward"
      && info.Subresource != "attach" then ([], none)
  else
    match env.admitter with
    | none => ([], none)
    | some plugin =>
      if plugin.Handles Operation.Connect then
        match plugin.Validate with
        | none => ([Event.admitHandles Operation.Connect], none)
        | some validate =>
          match connectKind info.Subresource with
          | some kind =>
            match env.DecodeParameters req.rawQuery kind with
            | Except.error err =>
              ([Event.admitHandles Operation.Connect,
                Event.decodeParameters req.rawQuery kind], some err)
            | Except.ok opts =>
              let (calls, res) :=
                validateConnect validate info (connectAttributes req info (some opts) kind)
              (Event.admitHandles Operation.Connect
                :: Event.decodeParameters req.rawQuery kind :: calls, res)
          | none =>
            let (calls, res) := validateConnect validate info (connectAttributes req info none "")
            (Event.admitHandles Operation.Connect :: calls, res)
      else ([Event.admitHandles Operation.Connect], none)

/-! ## `WithRedirect` (lines 23–82) -/

/-- Outcome of lines 41–67, the block that changes the request URL. -/
inductive Rewritten where
  /-- Control reaches line 69 with this request. -/
  | ok (req : Request)
  /-- The block wrote this error with `ErrorNegotiated` and returned. -/
  | failed (err : GoError)
  /-- The block faulted with `index out of range [index] with length len`. -/
  | fault (index : Nat) (len : Nat)
  deriving DecidableEq, Repr

/-- Lines 41–67 of `WithRedirect`. -/
def rewriteRequestURL (env : Env) (info : RequestInfo) (req : Request) : Rewritten :=
  if info.Resource != "nodes" then
    if info.Namespace == "" then Rewritten.failed (GoError.badRequest "namespace required")
    else
      let splitted := stringsSplit req.urlPath
      if splitted.length < 6 then Rewritten.failed (GoError.badRequest "unexpected url")
      else
        match sliceSet splitted 4 env.targetNamespace with
        | none => Rewritten.fault 4 splitted.length
        | some splitted4 =>
          match splitted4[6]? with
          | none => Rewritten.fault 6 splitted4.length
          | some name =>
            let targetName := env.PhysicalName name info.Namespace
            match sliceSet splitted4 6 targetName with
            | none => Rewritten.fault 6 splitted4.length
            | some splitted6 =>
              let path := stringsJoin splitted6
              if splitted6.length == 8 then Rewritten.ok { req with urlPath := path ++ "/" }
              else Rewritten.ok { req with urlPath := path }
  else Rewritten.ok req

/-- The handler closure returned by `WithRedirect`, run on one request. -/
def WithRedirect (env : Env) (req : Request) : List Event :=
  match req.info with
  | none => [Event.failWithStatus 500 (GoError.errorf "request info is missing") req]
  | some info =>
    if applies info env.resources then
      match callAdmissionWebhooks env req info with
      | (calls, some err) => calls ++ [Event.errorNegotiated err req]
      | (calls, none) =>
        match rewriteRequestURL env info req with
        | Rewritten.failed err => calls ++ [Event.errorNegotiated err req]
        | Rewritten.fault index len => calls ++ [Event.indexOutOfRange index len]
        | Rewritten.ok req1 =>
          match env.HandlerErr with
          | some err => calls ++ [Event.failWithStatus 500 err req1]
          | none => calls ++ [Event.servePhysical (req1.HeaderDel "Authorization")]
    else [Event.serveWrapped req]

/-! ## Predicates used in the statements -/

/-- A rule field admits a descriptor field: wildcard or exact equality. -/
def fieldAdmits (ruleField descriptorField : String) : Prop :=
  ruleField = "*" ∨ ruleField = descriptorField

/-- Events that are calls made by `callAdmissionWebhooks`. -/
def Event.isAdmissionCall : Event → Bool
  | Event.admitHandles _ => true
  | Event.decodeParameters _ _ => true
  | Event.admitValidate _ => true
  | Event.klogInfof _ _ => true
  | _ => false

/-! ## Sample inputs -/

/-- A name mapper that agrees with `my-pod`, `tenant-ns` ↦ `my-pod-x7f2` and
otherwise shapes names as `name-x-namespace`. -/
def samplePhysicalName (name ns : String) : String :=
  if name == "my-pod" && ns == "tenant-ns" then "my-pod-x7f2" else name ++ "-x-" ++ ns

/-- An admission plugin that handles `Connect` and denies every validation. -/
def denyAll : Admission :=
  { Handles := fun op => op == Operation.Connect,
    Validate := some (fun _ => some (GoError.collaborator "denied")) }

/-- The rule `{*,*,*,*,*}`. -/
def wildcardRule : GroupVersionResourceVerb :=
  { Group := "*", Version := "*", Resource := "*", Verb := "*", SubResource := "*" }

/-- A filter redirecting everything to `host-ns`, without admission plugin. -/
def sampleEnv : Env :=
  { admitter := none, targetNamespace := "host-ns", resources := [wildcardRule],
    PhysicalName := samplePhysicalName,
    DecodeParameters := fun query _ => Except.ok query,
    HandlerErr := none }

/-- The filter of `sampleEnv` with the plugin `denyAll`. -/
def denyEnv : Env := { sampleEnv with admitter := some denyAll }

/-- The descriptor of a request on a pod of `tenant-ns`. -/
def podInfo (path verb sub name : String) : RequestInfo :=
  { IsResourceRequest := true, Path := path, Verb := verb, APIGroup := "", APIVersion := "v1",
    Namespace := "tenant-ns", Resource := "pods", Subresource := sub, Name := name }

/-- A request with a bearer token and the given descriptor and path. -/
def sampleRequest (info : RequestInfo) (path : String) : Request :=
  { info := some info, user := some "alice", urlPath := path, rawQuery := "command=sh",
    Header := [("Authorization", ["Bearer t"]), ("Accept", ["text/plain"])] }

/-! ## The rule matcher -/

theorem ruleMatches_iff (r : RequestInfo) (gv : GroupVersionResourceVerb) :
    ruleMatches r gv = true ↔
      fieldAdmits gv.Group r.APIGroup ∧ fieldAdmits gv.Version r.APIVersion ∧
      fieldAdmits gv.Resource r.Resource ∧ fieldAdmits gv.SubResource r.Subresource ∧
      fieldAdmits gv.Verb r.Verb := by
  simp only [ruleMatches, fieldAdmits, Bool.and_eq_true, Bool.or_eq_true, beq_iff_eq]
  tauto

theorem appliesLoop_iff (r : RequestInfo) (rules : List GroupVersionResourceVerb) :
    appliesLoop r rules = true ↔ ∃ gv ∈ rules, ruleMatches r gv = true := by
  induction rules with
  | nil => simp [appliesLoop]
  | cons gv rest ih =>
    by_cases h : ruleMatches r gv = true
    · simp [appliesLoop, h]
    · simp [appliesLoop, h, ih]

/-- Claim C1. `applies r rules` is true exactly when `r` is a resource request
and some rule of `rules` has each of its five fields equal to `*` or to the
corresponding field of `r`; so it is false for every non-resource request,
and true for every resource request once `rules` contains `{*,*,*,*,*}`. -/
theorem applies_iff_exists_rule (r : RequestInfo) (rules : List GroupVersionResourceVerb) :
    (applies r rules = true ↔
      r.IsResourceRequest = true ∧
      ∃ gv ∈ rules,
        fieldAdmits gv.Group r.APIGroup ∧ fieldAdmits gv.Version r.APIVersion ∧
        fieldAdmits gv.Resource r.Resource ∧ fieldAdmits gv.SubResource r.Subresource ∧
        fieldAdmits gv.Verb r.Verb) ∧
    (r.IsResourceRequest = false → applies r rules = false) ∧
    (r.IsResourceRequest = true → wildcardRule ∈ rules → applies r rules = true) := by
  have key : applies r rules = true ↔
      r.IsResourceRequest = true ∧ ∃ gv ∈ rules, ruleMatches r gv = true := by
    cases hres : r.IsResourceRequest <;> simp [applies, hres, appliesLoop_iff]
  refine ⟨?_, ?_, ?_⟩
  · rw [key]
    simp only [ruleMatches_iff]
  · intro h
    cases hap : applies r rules
    · rfl
    · rw [key, h] at hap
      simp at hap
  · intro h hmem
    rw [key]
    refine ⟨h, wildcardRule, hmem, ?_⟩
    simp [ruleMatches, wildcardRule]

/-- A concrete instance, at a pod `exec` request and a
rule list whose second rule matches it through three wildcards. -/
theorem applies_iff_exists_rule_witness :
    (applies (podInfo "/api/v1/namespaces/tenant-ns/pods/my-pod/exec" "get" "exec" "my-pod")
        [⟨"apps", "v1", "pods", "get", "exec"⟩, ⟨"", "*", "pods", "*", "*"⟩] = true ↔
      (podInfo "/api/v1/namespaces/tenant-ns/pods/my-pod/exec" "get" "exec"
        "my-pod").IsResourceRequest = true ∧
      ∃ gv ∈ [(⟨"apps", "v1", "pods", "get", "exec"⟩ : GroupVersionResourceVerb),
          ⟨"", "*", "pods", "*", "*"⟩],
        fieldAdmits gv.Group "" ∧ fieldAdmits gv.Version "v1" ∧
        fieldAdmits gv.Resource "pods" ∧ fieldAdmits gv.SubResource "exec" ∧
        fieldAdmits gv.Verb "get") ∧
    applies (podInfo "/api/v1/namespaces/tenant-ns/pods/my-pod/exec" "get" "exec" "my-pod")
        [⟨"apps", "v1", "pods", "get", "exec"⟩, ⟨"", "*", "pods", "*", "*"⟩] = true :=
  ⟨(applies_iff_exists_rule _ _).1, by decide⟩

/-! ## The admission dispatcher -/

theorem validateConnect_calls (validate : Attributes → Option GoError) (info : RequestInfo)
    (attrs : Attributes) :
    ∀ ev ∈ (validateConnect validate info attrs).1, ev.isAdmissionCall = true := by
  unfold validateConnect
  cases validate attrs <;> simp [Event.isAdmissionCall]

/-- Everything `callAdmissionWebhooks` records is one of its collaborator calls. -/
theorem callAdmissionWebhooks_calls (env : Env) (req : Request) (info : RequestInfo) :
    ∀ ev ∈ (callAdmissionWebhooks env req info).1, ev.isAdmissionCall = true := by
  unfold callAdmissionWebhooks
  split
  · simp
  split
  · simp
  split
  · simp
  split
  · split
    · simp [Event.isAdmissionCall]
    · split
      · split
        · simp [Event.isAdmissionCall]
        · intro ev hev
          simp only [List.mem_cons] at hev
          rcases hev with h | h | h
          · simp [h, Event.isAdmissionCall]
          · simp [h, Event.isAdmissionCall]
          · exact validateConnect_calls _ _ _ ev h
      · intro ev hev
        simp only [List.mem_cons] at hev
        rcases hev with h | h
        · simp [h, Event.isAdmissionCall]
        · exact validateConnect_calls _ _ _ ev h
  · simp [Event.isAdmissionCall]

/-- Nothing is called and nil is returned unless the resource is `pods`. -/
theorem callAdmissionWebhooks_not_pods (env : Env) (req : Request) (info : RequestInfo)
    (h : info.Resource ≠ "pods") : callAdmissionWebhooks env req info = ([], none) := by
  simp [callAdmissionWebhooks, h]

/-- The shape of every run on a request the rules match. -/
theorem WithRedirect_matched (env : Env) (req : Request) (info : RequestInfo)
    (hinfo : req.info = some info) (happ : applies info env.resources = true) :
    WithRedirect env req =
      (callAdmissionWebhooks env req info).1 ++
        [match (callAdmissionWebhooks env req info).2 with
          | some err => Event.errorNegotiated err req
          | none =>
            match rewriteRequestURL env info req with
            | Rewritten.failed err => Event.errorNegotiated err req
            | Rewritten.fault index len => Event.indexOutOfRange index len
            | Rewritten.ok req1 =>
              match env.HandlerErr with
              | some err => Event.failWithStatus 500 err req1
              | none => Event.servePhysical (req1.HeaderDel "Authorization")] := by
  unfold WithRedirect
  simp only [hinfo, happ, if_true]
  rcases hcall : callAdmissionWebhooks env req info with ⟨calls, res⟩
  cases res with
  | some err => rfl
  | none =>
    simp only
    cases rewriteRequestURL env info req with
    | failed err => rfl
    | fault index len => rfl
    | ok req1 => cases env.HandlerErr <;> rfl

theorem HeaderDel_no_key (req : Request) (key : String) :
    ∀ kv ∈ (req.HeaderDel key).Header, kv.1 ≠ key := by
  intro kv hkv
  simp only [Request.HeaderDel, List.mem_filter, bne_iff_ne] at hkv
  exact hkv.2

theorem HeaderGet_of_no_key (req : Request) (key : String)
    (h : ∀ kv ∈ req.Header, kv.1 ≠ key) : req.HeaderGet key = "" := by
  unfold Request.HeaderGet
  have hnone : req.Header.find? (fun kv => kv.1 == key) = none := by
    rw [List.find?_eq_none]
    intro kv hkv
    simpa using h kv hkv
  rw [hnone]

/-! ## Pass-through, credential stripping and admission denial -/

/-- Claim C5. A request that carries a descriptor the rules do not match is
served by the wrapped handler, once and unmodified, and that is the only
effect of the filter: no admission call, no forwarding, no error response. -/
theorem passthrough_of_not_applies (env : Env) (req : Request) (info : RequestInfo)
    (hinfo : req.info = some info) (happ : applies info env.resources = false) :
    WithRedirect env req = [Event.serveWrapped req] ∧
    (WithRedirect env req).count (Event.serveWrapped req) = 1 ∧
    (∀ ev ∈ WithRedirect env req, ev.isAdmissionCall = false) ∧
    (∀ r, Event.servePhysical r ∉ WithRedirect env req) ∧
    (∀ code err r, Event.failWithStatus code err r ∉ WithRedirect env req) ∧
    (∀ err r, Event.errorNegotiated err r ∉ WithRedirect env req) := by
  have h : WithRedirect env req = [Event.serveWrapped req] := by
    simp [WithRedirect, hinfo, happ]
  rw [h]
  simp [Event.isAdmissionCall]

/-- A concrete instance, at a non-resource request
(`/healthz`) that carries a bearer token. -/
theorem passthrough_of_not_applies_witness :
    WithRedirect sampleEnv
        (sampleRequest { podInfo "/healthz" "get" "" "" with IsResourceRequest := false }
          "/healthz") =
      [Event.serveWrapped
        (sampleRequest { podInfo "/healthz" "get" "" "" with IsResourceRequest := false }
          "/healthz")] :=
  (passthrough_of_not_applies sampleEnv
    (sampleRequest { podInfo "/healthz" "get" "" "" with IsResourceRequest := false } "/healthz")
    { podInfo "/healthz" "get" "" "" with IsResourceRequest := false } rfl (by decide)).1

/-- Claim C4. Whatever the inbound request and its headers, a request that the
filter hands to the physical-cluster handler has no `Authorization` entry in
its header map, on the `nodes` branch as on the rewritten-path branch. -/
theorem forwarded_without_authorization (env : Env) (req r : Request)
    (h : Event.servePhysical r ∈ WithRedirect env req) :
    (∀ kv ∈ r.Header, kv.1 ≠ "Authorization") ∧ r.HeaderGet "Authorization" = "" := by
  have hkeys : ∀ kv ∈ r.Header, kv.1 ≠ "Authorization" := by
    unfold WithRedirect at h
    cases hinfo : req.info with
    | none => simp [hinfo] at h
    | some info =>
      simp only [hinfo] at h
      by_cases happ : applies info env.resources = true
      · simp only [happ, if_true] at h
        have hcalls := callAdmissionWebhooks_calls env req info
        rcases hcall : callAdmissionWebhooks env req info with ⟨calls, res⟩
        rw [hcall] at h hcalls
        have hnot : Event.servePhysical r ∉ calls := by
          intro hmem
          have := hcalls _ hmem
          simp [Event.isAdmissionCall] at this
        cases res with
        | some err => simp [hnot] at h
        | none =>
          simp only at h
          cases hrw : rewriteRequestURL env info req with
          | failed err => simp [hrw, hnot] at h
          | fault index len => simp [hrw, hnot] at h
          | ok req1 =>
            simp only [hrw] at h
            cases hH : env.HandlerErr with
            | some err => simp [hH, hnot] at h
            | none =>
              simp only [hH, List.mem_append, List.mem_singleton, Event.servePhysical.injEq,
                hnot, false_or] at h
              rw [h]
              exact HeaderDel_no_key req1 "Authorization"
      · simp [happ] at h
  exact ⟨hkeys, HeaderGet_of_no_key r "Authorization" hkeys⟩

/-- A concrete instance, at a pod `exec` request
that arrives with `Authorization: Bearer t`. -/
theorem forwarded_without_authorization_witness :
    (sampleRequest (podInfo "/api/v1/namespaces/tenant-ns/pods/my-pod/exec" "get" "exec" "my-pod")
        "/api/v1/namespaces/tenant-ns/pods/my-pod/exec").HeaderGet "Authorization" = "Bearer t" ∧
    Event.servePhysical
        { sampleRequest
            (podInfo "/api/v1/namespaces/tenant-ns/pods/my-pod/exec" "get" "exec" "my-pod")
            "/api/v1/namespaces/host-ns/pods/my-pod-x7f2/exec/" with
          Header := [("Accept", ["text/plain"])] } ∈
      WithRedirect sampleEnv
        (sampleRequest
          (podInfo "/api/v1/namespaces/tenant-ns/pods/my-pod/exec" "get" "exec" "my-pod")
          "/api/v1/namespaces/tenant-ns/pods/my-pod/exec") ∧
    ({ sampleRequest
          (podInfo "/api/v1/namespaces/tenant-ns/pods/my-pod/exec" "get" "exec" "my-pod")
          "/api/v1/namespaces/host-ns/pods/my-pod-x7f2/exec/" with
        Header := [("Accept", ["text/plain"])] } : Request).HeaderGet "Authorization" = "" :=
  ⟨by decide, by decide,
    (forwarded_without_authorization sampleEnv
      (sampleRequest
        (podInfo "/api/v1/namespaces/tenant-ns/pods/my-pod/exec" "get" "exec" "my-pod")
        "/api/v1/namespaces/tenant-ns/pods/my-pod/exec")
      { sampleRequest
          (podInfo "/api/v1/namespaces/tenant-ns/pods/my-pod/exec" "get" "exec" "my-pod")
          "/api/v1/namespaces/host-ns/pods/my-pod-x7f2/exec/" with
        Header := [("Accept", ["text/plain"])] }
      (by decide)).2⟩

/-- Claim C3. On a matched request for `pods` with sub-resource `exec`,
`attach` or `portforward`, when the admission plugin is present, handles
`Connect`, implements validation, the query parameters decode and the
validation returns the error `e`: `callAdmissionWebhooks` returns `e`, the
filter answers with `e` on the unchanged request, and neither the
physical-cluster handler nor the wrapped handler is invoked. -/
theorem admission_denial_aborts (env : Env) (req : Request) (info : RequestInfo)
    (plugin : Admission) (validate : Attributes → Option GoError) (kind opts : String)
    (e : GoError)
    (hinfo : req.info = some info) (happ : applies info env.resources = true)
    (hres : info.Resource = "pods")
    (hsub : info.Subresource = "exec" ∨ info.Subresource = "attach" ∨
      info.Subresource = "portforward")
    (hplugin : env.admitter = some plugin) (hhandles : plugin.Handles Operation.Connect = true)
    (hval : plugin.Validate = some validate)
    (hkind : connectKind info.Subresource = some kind)
    (hdecode : env.DecodeParameters req.rawQuery kind = Except.ok opts)
    (hdeny : validate (connectAttributes req info (some opts) kind) = some e) :
    (callAdmissionWebhooks env req info).2 = some e ∧
    WithRedirect env req =
      [Event.admitHandles Operation.Connect, Event.decodeParameters req.rawQuery kind,
        Event.admitValidate (connectAttributes req info (some opts) kind),
        Event.klogInfof info.Path e, Event.errorNegotiated e req] ∧
    (∀ r, Event.servePhysical r ∉ WithRedirect env req) ∧
    (∀ r, Event.serveWrapped r ∉ WithRedirect env req) := by
  have hguard : (info.Subresource != "exec" && info.Subresource != "portforward"
      && info.Subresource != "attach") = false := by
    rcases hsub with h | h | h <;> simp [h]
  have hcall : callAdmissionWebhooks env req info =
      ([Event.admitHandles Operation.Connect, Event.decodeParameters req.rawQuery kind,
        Event.admitValidate (connectAttributes req info (some opts) kind),
        Event.klogInfof info.Path e], some e) := by
    unfold callAdmissionWebhooks
    simp [hres, hguard, hplugin, hhandles, hval, hkind, hdecode, validateConnect, hdeny]
  have hrun := WithRedirect_matched env req info hinfo happ
  rw [hcall] at hrun
  simp only [List.cons_append, List.nil_append] at hrun
  refine ⟨by rw [hcall], hrun, ?_, ?_⟩ <;> · intro r; rw [hrun]; simp

/-- A concrete instance, at a pod `exec` request under
a plugin that denies everything. -/
theorem admission_denial_aborts_witness :
    (callAdmissionWebhooks denyEnv
        (sampleRequest
          (podInfo "/api/v1/namespaces/tenant-ns/pods/my-pod/exec" "get" "exec" "my-pod")
          "/api/v1/namespaces/tenant-ns/pods/my-pod/exec")
        (podInfo "/api/v1/namespaces/tenant-ns/pods/my-pod/exec" "get" "exec" "my-pod")).2 =
      some (GoError.collaborator "denied") :=
  (admission_denial_aborts denyEnv
    (sampleRequest
      (podInfo "/api/v1/namespaces/tenant-ns/pods/my-pod/exec" "get" "exec" "my-pod")
      "/api/v1/namespaces/tenant-ns/pods/my-pod/exec")
    (podInfo "/api/v1/namespaces/tenant-ns/pods/my-pod/exec" "get" "exec" "my-pod")
    denyAll (fun _ => some (GoError.collaborator "denied")) "PodExecOptions" "command=sh"
    (GoError.collaborator "denied")
    rfl (by decide) rfl (Or.inl rfl) rfl rfl rfl (by decide) rfl rfl).1

/-! ## Splitting and joining on `/` -/

theorem splitChars_ne_nil (sep : Char) (cs : List Char) : splitChars sep cs ≠ [] := by
  cases cs with
  | nil => simp [splitChars]
  | cons c cs =>
    unfold splitChars
    split
    · simp
    · split <;> simp

/-- Joining the segments of a split gives back the original. -/
theorem joinChars_splitChars (sep : Char) (cs : List Char) :
    joinChars sep (splitChars sep cs) = cs := by
  induction cs with
  | nil => simp [splitChars, joinChars]
  | cons c cs ih =>
    unfold splitChars
    by_cases hc : c = sep
    · simp only [hc, if_true]
      cases hsp : splitChars sep cs with
      | nil => exact absurd hsp (splitChars_ne_nil sep cs)
      | cons seg rest =>
        rw [hsp] at ih
        simp [joinChars, ih]
    · simp only [hc, if_false]
      cases hsp : splitChars sep cs with
      | nil => exact absurd hsp (splitChars_ne_nil sep cs)
      | cons seg rest =>
        rw [hsp] at ih
        cases rest with
        | nil =>
          simp only [joinChars] at ih ⊢
          rw [ih]
        | cons seg2 rest2 =>
          simp only [joinChars] at ih ⊢
          rw [← ih]
          simp

/-- No segment of a split contains the separator. -/
theorem splitChars_sep_free (sep : Char) (cs : List Char) :
    ∀ seg ∈ splitChars sep cs, sep ∉ seg := by
  induction cs with
  | nil => simp [splitChars]
  | cons c cs ih =>
    unfold splitChars
    by_cases hc : c = sep
    · simp only [hc, if_true]
      intro seg hseg
      rcases List.mem_cons.1 hseg with h | h
      · simp [h]
      · exact ih seg h
    · simp only [hc, if_false]
      cases hsp : splitChars sep cs with
      | nil => exact absurd hsp (splitChars_ne_nil sep cs)
      | cons seg0 rest =>
        rw [hsp] at ih
        intro seg hseg
        rcases List.mem_cons.1 hseg with h | h
        · rw [h]
          intro hmem
          rcases List.mem_cons.1 hmem with h1 | h1
          · exact hc h1.symm
          · exact ih seg0 (List.mem_cons_self _ _) h1
        · exact ih seg (List.mem_cons_of_mem _ h)

theorem splitChars_of_sep_free (sep : Char) (tok : List Char) (h : sep ∉ tok) :
    splitChars sep tok = [tok] := by
  induction tok with
  | nil => simp [splitChars]
  | cons c cs ih =>
    have hc : c ≠ sep := fun hEq => h (by simp [hEq])
    have hcs : sep ∉ cs := fun hmem => h (List.mem_cons_of_mem _ hmem)
    unfold splitChars
    simp [hc, ih hcs]

theorem splitChars_append_sep (sep : Char) (tok rest : List Char) (h : sep ∉ tok) :
    splitChars sep (tok ++ sep :: rest) = tok :: splitChars sep rest := by
  induction tok with
  | nil => rw [List.nil_append, splitChars, if_pos rfl]
  | cons c cs ih =>
    have hc : c ≠ sep := fun hEq => h (by simp [hEq])
    have hcs : sep ∉ cs := fun hmem => h (List.mem_cons_of_mem _ hmem)
    rw [List.cons_append]
    conv_lhs => unfold splitChars
    simp [hc, ih hcs]

/-- Splitting a join of separator-free segments gives back the segments. -/
theorem splitChars_joinChars (sep : Char) (segs : List (List Char)) (hne : segs ≠ [])
    (hfree : ∀ seg ∈ segs, sep ∉ seg) : splitChars sep (joinChars sep segs) = segs := by
  induction segs with
  | nil => exact absurd rfl hne
  | cons seg rest ih =>
    cases rest with
    | nil =>
      simp only [joinChars]
      exact splitChars_of_sep_free sep seg (hfree seg (List.mem_cons_self _ _))
    | cons seg2 rest2 =>
      simp only [joinChars]
      rw [splitChars_append_sep sep seg _ (hfree seg (List.mem_cons_self _ _))]
      have := ih (by simp) (fun s hs => hfree s (List.mem_cons_of_mem _ hs))
      simp only [joinChars] at this
      rw [this]

theorem joinChars_cons_cons (sep : Char) (a b : List Char) (rest : List (List Char)) :
    joinChars sep (a :: b :: rest) = a ++ sep :: joinChars sep (b :: rest) := rfl

theorem joinChars_append_empty (sep : Char) (segs : List (List Char)) (hne : segs ≠ []) :
    joinChars sep (segs ++ [[]]) = joinChars sep segs ++ [sep] := by
  induction segs with
  | nil => exact absurd rfl hne
  | cons seg rest ih =>
    cases rest with
    | nil => simp [joinChars]
    | cons seg2 rest2 =>
      have h2 := ih (by simp)
      rw [List.cons_append, List.cons_append, joinChars_cons_cons, ← List.cons_append, h2,
        joinChars_cons_cons]
      simp

theorem stringsSplit_ne_nil (s : String) : stringsSplit s ≠ [] := by
  simp [stringsSplit, splitChars_ne_nil]

theorem stringsSplit_length_pos (s : String) : 0 < (stringsSplit s).length :=
  List.length_pos.2 (stringsSplit_ne_nil s)

theorem stringsJoin_stringsSplit (s : String) : stringsJoin (stringsSplit s) = s := by
  simp [stringsJoin, stringsSplit, Function.comp_def, joinChars_splitChars]

theorem stringsSplit_sep_free (s : String) : ∀ seg ∈ stringsSplit s, '/' ∉ seg.data := by
  intro seg hseg
  simp only [stringsSplit, List.mem_map] at hseg
  obtain ⟨cs, hcs, rfl⟩ := hseg
  exact splitChars_sep_free '/' s.data cs hcs

theorem stringsSplit_stringsJoin (segs : List String) (hne : segs ≠ [])
    (hfree : ∀ seg ∈ segs, '/' ∉ seg.data) : stringsSplit (stringsJoin segs) = segs := by
  simp only [stringsSplit, stringsJoin]
  rw [splitChars_joinChars '/' (segs.map String.data) (by simpa using hne)]
  · simp [Function.comp_def]
  · intro seg hseg
    simp only [List.mem_map] at hseg
    obtain ⟨str, hstr, rfl⟩ := hseg
    exact hfree str hstr

theorem stringsSplit_stringsJoin_slash (segs : List String) (hne : segs ≠ [])
    (hfree : ∀ seg ∈ segs, '/' ∉ seg.data) :
    stringsSplit (stringsJoin segs ++ "/") = segs ++ [""] := by
  have hjoin : stringsJoin segs ++ "/" = stringsJoin (segs ++ [""]) := by
    apply String.ext
    simp only [stringsJoin, String.data_append, List.map_append, List.map_cons, List.map_nil]
    rw [joinChars_append_empty '/' _ (by simpa using hne)]
  rw [hjoin]
  apply stringsSplit_stringsJoin
  · simp
  · intro seg hseg
    rcases List.mem_append.1 hseg with h | h
    · exact hfree seg h
    · simp only [List.mem_singleton] at h
      rw [h]
      simp

/-! ## The URL rewrite, case by case -/

theorem rewriteRequestURL_nodes (env : Env) (info : RequestInfo) (req : Request)
    (hres : info.Resource = "nodes") : rewriteRequestURL env info req = Rewritten.ok req := by
  simp [rewriteRequestURL, hres]

theorem rewriteRequestURL_no_namespace (env : Env) (info : RequestInfo) (req : Request)
    (hres : info.Resource ≠ "nodes") (hns : info.Namespace = "") :
    rewriteRequestURL env info req =
      Rewritten.failed (GoError.badRequest "namespace required") := by
  simp [rewriteRequestURL, hres, hns]

theorem rewriteRequestURL_short (env : Env) (info : RequestInfo) (req : Request)
    (hres : info.Resource ≠ "nodes") (hns : info.Namespace ≠ "")
    (hlen : (stringsSplit req.urlPath).length < 6) :
    rewriteRequestURL env info req =
      Rewritten.failed (GoError.badRequest "unexpected url") := by
  simp [rewriteRequestURL, hres, hns, hlen]

/-- With exactly six segments the length check passes and the read of
`splitted[6]` is out of range. -/
theorem rewriteRequestURL_six (env : Env) (info : RequestInfo) (req : Request)
    (hres : info.Resource ≠ "nodes") (hns : info.Namespace ≠ "")
    (hlen : (stringsSplit req.urlPath).length = 6) :
    rewriteRequestURL env info req = Rewritten.fault 6 6 := by
  have hnone : ((stringsSplit req.urlPath).set 4 env.targetNamespace)[6]? = none := by
    rw [List.getElem?_eq_none_iff]
    simp [hlen]
  simp [rewriteRequestURL, hres, hns, hlen, sliceSet, hnone]

theorem rewriteRequestURL_long (env : Env) (info : RequestInfo) (req : Request) (name : String)
    (hres : info.Resource ≠ "nodes") (hns : info.Namespace ≠ "")
    (hname : (stringsSplit req.urlPath)[6]? = some name) :
    rewriteRequestURL env info req =
      Rewritten.ok { req with
        urlPath :=
          stringsJoin (((stringsSplit req.urlPath).set 4 env.targetNamespace).set 6
            (env.PhysicalName name info.Namespace)) ++
          (if (stringsSplit req.urlPath).length = 8 then "/" else "") } := by
  have hlt : 6 < (stringsSplit req.urlPath).length := by
    by_contra hcon
    rw [List.getElem?_eq_none_iff.2 (Nat.le_of_not_lt hcon)] at hname
    exact absurd hname (by simp)
  have h6 : ¬ (stringsSplit req.urlPath).length < 6 := by omega
  have h4 : 4 < (stringsSplit req.urlPath).length := by omega
  have hget : ((stringsSplit req.urlPath).set 4 env.targetNamespace)[6]? = some name := by
    rw [List.getElem?_set_ne (by decide)]
    exact hname
  unfold rewriteRequestURL
  simp only [bne_iff_ne, ne_eq, hres, not_false_eq_true, if_true, beq_iff_eq, hns, if_false,
    h6, sliceSet, h4, hget, List.length_set, hlt]
  by_cases h8 : (stringsSplit req.urlPath).length = 8
  · simp [h8]
  · simp [h8]

theorem exists_segment_six (segs : List String) (hlen : 7 ≤ segs.length) :
    ∃ name, segs[6]? = some name :=
  ⟨segs[6], List.getElem?_eq_getElem (by omega)⟩

/-- A matched, admitted request whose URL rewrite went through is forwarded,
once the physical-cluster handler could be built. -/
theorem WithRedirect_forwarded (env : Env) (req req1 : Request) (info : RequestInfo)
    (hinfo : req.info = some info) (happ : applies info env.resources = true)
    (hadm : (callAdmissionWebhooks env req info).2 = none)
    (hrw : rewriteRequestURL env info req = Rewritten.ok req1)
    (hH : env.HandlerErr = none) :
    WithRedirect env req =
      (callAdmissionWebhooks env req info).1 ++
        [Event.servePhysical (req1.HeaderDel "Authorization")] := by
  rw [WithRedirect_matched env req info hinfo happ, hadm, hrw, hH]

/-- A matched, admitted request whose URL rewrite failed is answered with the
error on the unchanged request. -/
theorem WithRedirect_rewrite_failed (env : Env) (req : Request) (info : RequestInfo)
    (err : GoError)
    (hinfo : req.info = some info) (happ : applies info env.resources = true)
    (hadm : (callAdmissionWebhooks env req info).2 = none)
    (hrw : rewriteRequestURL env info req = Rewritten.failed err) :
    WithRedirect env req =
      (callAdmissionWebhooks env req info).1 ++ [Event.errorNegotiated err req] := by
  rw [WithRedirect_matched env req info hinfo happ, hadm, hrw]

theorem not_mem_admission_calls (env : Env) (req : Request) (info : RequestInfo) (ev : Event)
    (hev : ev.isAdmissionCall = false) : ev ∉ (callAdmissionWebhooks env req info).1 := by
  intro hmem
  rw [callAdmissionWebhooks_calls env req info ev hmem] at hev
  exact absurd hev (by decide)

/-! ## Namespace requirement and the `nodes` exemption -/

/-- Claim C8. For a matched request whose resource is not `nodes` and whose
descriptor namespace is empty, the translation fails with the bad-request
error `namespace required`; the filter ends with an error response on the
request exactly as received (that error, once admission has passed) and
never hands the request to the physical-cluster handler. -/
theorem namespace_required (env : Env) (req : Request) (info : RequestInfo)
    (hinfo : req.info = some info) (happ : applies info env.resources = true)
    (hres : info.Resource ≠ "nodes") (hns : info.Namespace = "") :
    rewriteRequestURL env info req =
      Rewritten.failed (GoError.badRequest "namespace required") ∧
    ((callAdmissionWebhooks env req info).2 = none →
      WithRedirect env req =
        (callAdmissionWebhooks env req info).1 ++
          [Event.errorNegotiated (GoError.badRequest "namespace required") req]) ∧
    (∃ err, WithRedirect env req =
      (callAdmissionWebhooks env req info).1 ++ [Event.errorNegotiated err req]) ∧
    (∀ r, Event.servePhysical r ∉ WithRedirect env req) := by
  have hrw := rewriteRequestURL_no_namespace env info req hres hns
  have hrun := WithRedirect_matched env req info hinfo happ
  rw [hrw] at hrun
  have hex : ∃ err, WithRedirect env req =
      (callAdmissionWebhooks env req info).1 ++ [Event.errorNegotiated err req] := by
    cases hadm : (callAdmissionWebhooks env req info).2 with
    | some err => exact ⟨err, by rw [hrun, hadm]⟩
    | none => exact ⟨_, by rw [hrun, hadm]⟩
  refine ⟨hrw, fun hadm => WithRedirect_rewrite_failed env req info _ hinfo happ hadm hrw,
    hex, ?_⟩
  intro r hmem
  obtain ⟨err, herr⟩ := hex
  rw [herr] at hmem
  rcases List.mem_append.1 hmem with h | h
  · exact not_mem_admission_calls env req info (Event.servePhysical r) rfl h
  · simp at h

/-- A concrete instance, at a request that lists pods across
all namespaces. -/
theorem namespace_required_witness :
    WithRedirect sampleEnv
        (sampleRequest { podInfo "/api/v1/pods" "list" "" "" with Namespace := "" }
          "/api/v1/pods") =
      [Event.errorNegotiated (GoError.badRequest "namespace required")
        (sampleRequest { podInfo "/api/v1/pods" "list" "" "" with Namespace := "" }
          "/api/v1/pods")] :=
  (namespace_required sampleEnv
    (sampleRequest { podInfo "/api/v1/pods" "list" "" "" with Namespace := "" } "/api/v1/pods")
    { podInfo "/api/v1/pods" "list" "" "" with Namespace := "" }
    rfl (by decide) (by decide) rfl).2.1 (by decide)

/-- Claim C9. For a matched request whose resource is `nodes`, whatever the
descriptor namespace and the URL path, the URL is not rewritten: the request
reaches the physical-cluster handler (whenever that handler could be built)
with the path it arrived with, and the filter writes no negotiated error,
so neither `namespace required` nor `unexpected url`. -/
theorem nodes_not_rewritten (env : Env) (req : Request) (info : RequestInfo)
    (hinfo : req.info = some info) (happ : applies info env.resources = true)
    (hres : info.Resource = "nodes") :
    rewriteRequestURL env info req = Rewritten.ok req ∧
    (env.HandlerErr = none →
      WithRedirect env req = [Event.servePhysical (req.HeaderDel "Authorization")]) ∧
    (req.HeaderDel "Authorization").urlPath = req.urlPath ∧
    (∀ r, Event.servePhysical r ∈ WithRedirect env req → r.urlPath = req.urlPath) ∧
    (∀ err r, Event.errorNegotiated err r ∉ WithRedirect env req) := by
  have hrw := rewriteRequestURL_nodes env info req hres
  have hcall : callAdmissionWebhooks env req info = ([], none) :=
    callAdmissionWebhooks_not_pods env req info (by rw [hres]; decide)
  have hrun := WithRedirect_matched env req info hinfo happ
  rw [hcall, hrw] at hrun
  simp only [List.nil_append] at hrun
  refine ⟨hrw, ?_, rfl, ?_, ?_⟩
  · intro hH
    rw [hrun, hH]
  · intro r hmem
    rw [hrun] at hmem
    cases hH : env.HandlerErr with
    | some err => simp [hH] at hmem
    | none =>
      simp only [hH, List.mem_singleton, Event.servePhysical.injEq] at hmem
      rw [hmem]
      rfl
  · intro err r hmem
    rw [hrun] at hmem
    cases hH : env.HandlerErr <;> simp [hH] at hmem

/-- A concrete instance, at a `nodes/proxy` request with an
empty namespace and a path of five segments. -/
theorem nodes_not_rewritten_witness :
    WithRedirect sampleEnv
        (sampleRequest
          { podInfo "/api/v1/nodes/n1" "get" "proxy" "n1" with
            Namespace := "", Resource := "nodes" }
          "/api/v1/nodes/n1") =
      [Event.servePhysical
        { sampleRequest
            { podInfo "/api/v1/nodes/n1" "get" "proxy" "n1" with
              Namespace := "", Resource := "nodes" }
            "/api/v1/nodes/n1" with
          Header := [("Accept", ["text/plain"])] }] :=
  (nodes_not_rewritten sampleEnv
    (sampleRequest
      { podInfo "/api/v1/nodes/n1" "get" "proxy" "n1" with Namespace := "", Resource := "nodes" }
      "/api/v1/nodes/n1")
    { podInfo "/api/v1/nodes/n1" "get" "proxy" "n1" with Namespace := "", Resource := "nodes" }
    rfl (by decide) rfl).2.1 rfl

/-! ## Segment counts -/

/-- Claim C10, at the input where the code departs from it. The path
`/api/v1/namespaces/tenant-ns/pods` splits into six segments, so it passes the
check `len(splitted) < 6`; the read of `splitted[6]` is then out of range, and
the run ends in that fault instead of an error response or a rewrite. -/
theorem six_segments_index_fault :
    (stringsSplit "/api/v1/namespaces/tenant-ns/pods").length = 6 ∧
    applies (podInfo "/api/v1/namespaces/tenant-ns/pods" "list" "" "")
      [⟨"", "v1", "pods", "*", "*"⟩] = true ∧
    rewriteRequestURL { sampleEnv with resources := [⟨"", "v1", "pods", "*", "*"⟩] }
        (podInfo "/api/v1/namespaces/tenant-ns/pods" "list" "" "")
        (sampleRequest (podInfo "/api/v1/namespaces/tenant-ns/pods" "list" "" "")
          "/api/v1/namespaces/tenant-ns/pods") =
      Rewritten.fault 6 6 ∧
    WithRedirect { sampleEnv with resources := [⟨"", "v1", "pods", "*", "*"⟩] }
        (sampleRequest (podInfo "/api/v1/namespaces/tenant-ns/pods" "list" "" "")
          "/api/v1/namespaces/tenant-ns/pods") =
      [Event.indexOutOfRange 6 6] := by
  refine ⟨by decide, by decide, by decide, by decide⟩

/-- The three outcomes of the rewrite for a resource other than `nodes` and a
non-empty namespace: fewer than six segments give `unexpected url`, exactly
six give the index fault, seven or more complete. -/
theorem rewriteRequestURL_outcomes (env : Env) (info : RequestInfo) (req : Request)
    (hres : info.Resource ≠ "nodes") (hns : info.Namespace ≠ "") :
    ((stringsSplit req.urlPath).length < 6 ∧
      rewriteRequestURL env info req =
        Rewritten.failed (GoError.badRequest "unexpected url")) ∨
    ((stringsSplit req.urlPath).length = 6 ∧
      rewriteRequestURL env info req = Rewritten.fault 6 6) ∨
    (7 ≤ (stringsSplit req.urlPath).length ∧
      ∃ req1, rewriteRequestURL env info req = Rewritten.ok req1) := by
  rcases Nat.lt_trichotomy (stringsSplit req.urlPath).length 6 with h | h | h
  · exact Or.inl ⟨h, rewriteRequestURL_short env info req hres hns h⟩
  · exact Or.inr (Or.inl ⟨h, rewriteRequestURL_six env info req hres hns h⟩)
  · obtain ⟨name, hname⟩ := exists_segment_six (stringsSplit req.urlPath) h
    exact Or.inr (Or.inr ⟨h, _, rewriteRequestURL_long env info req name hres hns hname⟩)

/-! ## The rewritten path -/

theorem stringsJoin_ne_append_slash (s : String) (sfx : String) (h : sfx = "" )
    : s ++ sfx ≠ s ++ "/" := by
  intro hEq
  rw [h] at hEq
  have hlen := congrArg String.length hEq
  simp only [String.length_append] at hlen
  have h0 : ("" : String).length = 0 := rfl
  have h1 : ("/" : String).length = 1 := rfl
  omega

theorem rewritten_segments_sep_free (segs : List String) (ns name : String)
    (hsegs : ∀ seg ∈ segs, '/' ∉ seg.data) (hns : '/' ∉ ns.data) (hname : '/' ∉ name.data) :
    ∀ seg ∈ (segs.set 4 ns).set 6 name, '/' ∉ seg.data := by
  intro seg hseg
  rcases List.mem_or_eq_of_mem_set hseg with h | h
  · rcases List.mem_or_eq_of_mem_set h with h2 | h2
    · exact hsegs seg h2
    · rw [h2]; exact hns
  · rw [h]; exact hname

/-- Claim C6. For a matched request with resource other than `nodes`, a
non-empty descriptor namespace and a path of `n ≥ 7` segments, the path after
translation is the `/`-join of the segments with segment 4 replaced by the
target namespace and segment 6 by the physical name of the old segment 6,
followed by one more `/` exactly when `n = 8`; all other segments, also those
after index 6, keep their value and position. The forwarded request carries
that path, and splitting it again shows the kept segments in place whenever
the two new segments are free of `/`. -/
theorem rewrite_replaces_namespace_and_name (env : Env) (req : Request) (info : RequestInfo)
    (hinfo : req.info = some info) (happ : applies info env.resources = true)
    (hres : info.Resource ≠ "nodes") (hns : info.Namespace ≠ "")
    (hlen : 7 ≤ (stringsSplit req.urlPath).length) :
    ∃ name segs path,
      (stringsSplit req.urlPath)[6]? = some name ∧
      segs = ((stringsSplit req.urlPath).set 4 env.targetNamespace).set 6
        (env.PhysicalName name info.Namespace) ∧
      path = stringsJoin segs ++ (if (stringsSplit req.urlPath).length = 8 then "/" else "") ∧
      rewriteRequestURL env info req = Rewritten.ok { req with urlPath := path } ∧
      segs.length = (stringsSplit req.urlPath).length ∧
      segs[4]? = some env.targetNamespace ∧
      segs[6]? = some (env.PhysicalName name info.Namespace) ∧
      (∀ i, i ≠ 4 → i ≠ 6 → segs[i]? = (stringsSplit req.urlPath)[i]?) ∧
      ((callAdmissionWebhooks env req info).2 = none → env.HandlerErr = none →
        ∃ r, r.urlPath = path ∧
          WithRedirect env req =
            (callAdmissionWebhooks env req info).1 ++ [Event.servePhysical r]) ∧
      ('/' ∉ env.targetNamespace.data → '/' ∉ (env.PhysicalName name info.Namespace).data →
        ∀ i, i < (stringsSplit req.urlPath).length → i ≠ 4 → i ≠ 6 →
          (stringsSplit path)[i]? = (stringsSplit req.urlPath)[i]?) := by
  obtain ⟨name, hname⟩ := exists_segment_six (stringsSplit req.urlPath) hlen
  have hrw := rewriteRequestURL_long env info req name hres hns hname
  have hother : ∀ i, i ≠ 4 → i ≠ 6 →
      (((stringsSplit req.urlPath).set 4 env.targetNamespace).set 6
        (env.PhysicalName name info.Namespace))[i]? = (stringsSplit req.urlPath)[i]? := by
    intro i h4 h6
    rw [List.getElem?_set_ne (Ne.symm h6), List.getElem?_set_ne (Ne.symm h4)]
  refine ⟨name, _, _, hname, rfl, rfl, hrw, by simp, ?_, ?_, hother, ?_, ?_⟩
  · rw [List.getElem?_set_ne (by decide), List.getElem?_set_eq_of_lt _ (by omega)]
  · rw [List.getElem?_set_eq_of_lt _ (by simp; omega)]
  · intro hadm hH
    exact ⟨_, rfl, WithRedirect_forwarded env req _ info hinfo happ hadm hrw hH⟩
  · intro hfns hfname i hi h4 h6
    have hfree := rewritten_segments_sep_free (stringsSplit req.urlPath) env.targetNamespace
      (env.PhysicalName name info.Namespace) (stringsSplit_sep_free req.urlPath) hfns hfname
    have hne : ((stringsSplit req.urlPath).set 4 env.targetNamespace).set 6
        (env.PhysicalName name info.Namespace) ≠ [] := by
      intro hnil
      have hzero := congrArg List.length hnil
      simp only [List.length_set, List.length_nil] at hzero
      omega
    by_cases h8 : (stringsSplit req.urlPath).length = 8
    · simp only [h8, if_true]
      rw [stringsSplit_stringsJoin_slash _ hne hfree,
        List.getElem?_append_left (by simp; omega)]
      exact hother i h4 h6
    · simp only [h8, if_false, String.append_empty]
      rw [stringsSplit_stringsJoin _ hne hfree]
      exact hother i h4 h6

/-- A concrete instance, at a pod `log`
request of eight segments: segments 4 and 6 are replaced, `log` is kept, and a
`/` is added. -/
theorem rewrite_replaces_namespace_and_name_witness :
    rewriteRequestURL sampleEnv
        (podInfo "/api/v1/namespaces/tenant-ns/pods/my-pod/log" "get" "log" "my-pod")
        (sampleRequest
          (podInfo "/api/v1/namespaces/tenant-ns/pods/my-pod/log" "get" "log" "my-pod")
          "/api/v1/namespaces/tenant-ns/pods/my-pod/log") =
      Rewritten.ok
        (sampleRequest
          (podInfo "/api/v1/namespaces/tenant-ns/pods/my-pod/log" "get" "log" "my-pod")
          "/api/v1/namespaces/host-ns/pods/my-pod-x7f2/log/") := by
  obtain ⟨name, segs, path, h1, h2, h3, h4, _⟩ :=
    rewrite_replaces_namespace_and_name sampleEnv
      (sampleRequest
        (podInfo "/api/v1/namespaces/tenant-ns/pods/my-pod/log" "get" "log" "my-pod")
        "/api/v1/namespaces/tenant-ns/pods/my-pod/log")
      (podInfo "/api/v1/namespaces/tenant-ns/pods/my-pod/log" "get" "log" "my-pod")
      rfl (by decide) (by decide) (by decide) (by decide)
  have hseg : (stringsSplit (sampleRequest
      (podInfo "/api/v1/namespaces/tenant-ns/pods/my-pod/log" "get" "log" "my-pod")
      "/api/v1/namespaces/tenant-ns/pods/my-pod/log").urlPath)[6]? = some "my-pod" := by
    decide
  rw [hseg] at h1
  have hname : name = "my-pod" := (Option.some.inj h1).symm
  subst hname
  have hpath : path = "/api/v1/namespaces/host-ns/pods/my-pod-x7f2/log/" := by
    rw [h3, h2]
    decide
  rw [h4, hpath]
  rfl

/-- Claim C7, as amended. Whenever the translator rewrites a path (seven or
more segments), a trailing `/` is appended exactly when the split has eight
segments. In that case the overwritten name segment, index 6, is not the last
one: exactly one segment follows it, and that segment stays last. When the
overwritten segment is the last one (seven segments) nothing is appended. -/
theorem trailing_slash_iff_eight_segments (env : Env) (req : Request) (info : RequestInfo)
    (hres : info.Resource ≠ "nodes") (hns : info.Namespace ≠ "")
    (hlen : 7 ≤ (stringsSplit req.urlPath).length) :
    ∃ name segs req1,
      (stringsSplit req.urlPath)[6]? = some name ∧
      segs = ((stringsSplit req.urlPath).set 4 env.targetNamespace).set 6
        (env.PhysicalName name info.Namespace) ∧
      rewriteRequestURL env info req = Rewritten.ok req1 ∧
      (req1.urlPath = stringsJoin segs ++ "/" ↔ (stringsSplit req.urlPath).length = 8) ∧
      ((stringsSplit req.urlPath).length ≠ 8 → req1.urlPath = stringsJoin segs) ∧
      ((stringsSplit req.urlPath).length = 8 →
        ∃ last, (stringsSplit req.urlPath)[7]? = some last ∧
          (stringsSplit req.urlPath).getLast? = some last ∧ segs.getLast? = some last) ∧
      ((stringsSplit req.urlPath).length = 7 →
        (stringsSplit req.urlPath).getLast? = some name ∧ req1.urlPath = stringsJoin segs) := by
  obtain ⟨name, hname⟩ := exists_segment_six (stringsSplit req.urlPath) hlen
  have hrw := rewriteRequestURL_long env info req name hres hns hname
  refine ⟨name, _, _, hname, rfl, hrw, ?_, ?_, ?_, ?_⟩
  · constructor
    · intro hEq
      by_contra h8
      simp only [h8, if_false] at hEq
      exact stringsJoin_ne_append_slash _ "" rfl hEq
    · intro h8
      simp only [h8, if_true]
  · intro h8
    simp only [h8, if_false, String.append_empty]
  · intro h8
    have h7 : 7 < (stringsSplit req.urlPath).length := by omega
    refine ⟨(stringsSplit req.urlPath)[7], List.getElem?_eq_getElem h7, ?_, ?_⟩
    · rw [List.getLast?_eq_getElem?, h8]
      exact List.getElem?_eq_getElem h7
    · rw [List.getLast?_eq_getElem?]
      simp only [List.length_set, h8]
      rw [List.getElem?_set_ne (by decide), List.getElem?_set_ne (by decide)]
      exact List.getElem?_eq_getElem h7
  · intro h7
    have h8 : (stringsSplit req.urlPath).length ≠ 8 := by omega
    refine ⟨?_, ?_⟩
    · rw [List.getLast?_eq_getElem?, h7]
      exact hname
    · simp only [h8, if_false, String.append_empty]

/-- A concrete instance, at a pod request of
seven segments: the name is last and no `/` is appended. -/
theorem trailing_slash_iff_eight_segments_witness :
    rewriteRequestURL sampleEnv
        (podInfo "/api/v1/namespaces/tenant-ns/pods/my-pod" "get" "" "my-pod")
        (sampleRequest (podInfo "/api/v1/namespaces/tenant-ns/pods/my-pod" "get" "" "my-pod")
          "/api/v1/namespaces/tenant-ns/pods/my-pod") =
      Rewritten.ok
        (sampleRequest (podInfo "/api/v1/namespaces/tenant-ns/pods/my-pod" "get" "" "my-pod")
          "/api/v1/namespaces/host-ns/pods/my-pod-x7f2") := by
  obtain ⟨name, segs, req1, h1, h2, h3, _, _, _, h7⟩ :=
    trailing_slash_iff_eight_segments sampleEnv
      (sampleRequest (podInfo "/api/v1/namespaces/tenant-ns/pods/my-pod" "get" "" "my-pod")
        "/api/v1/namespaces/tenant-ns/pods/my-pod")
      (podInfo "/api/v1/namespaces/tenant-ns/pods/my-pod" "get" "" "my-pod")
      (by decide) (by decide) (by decide)
  rw [h3]
  exact h3.symm.trans (by decide)

/-- Claim C7 fails as worded. The path `/api/v1/namespaces/tenant-ns/pods/my-pod/exec`
splits into eight segments and gets the trailing `/`, yet the overwritten
segment, index 6 (`my-pod`), is not the last one: `exec` follows it. -/
theorem trailing_slash_counterexample :
    rewriteRequestURL sampleEnv
        (podInfo "/api/v1/namespaces/tenant-ns/pods/my-pod/exec" "get" "exec" "my-pod")
        (sampleRequest
          (podInfo "/api/v1/namespaces/tenant-ns/pods/my-pod/exec" "get" "exec" "my-pod")
          "/api/v1/namespaces/tenant-ns/pods/my-pod/exec") =
      Rewritten.ok
        (sampleRequest
          (podInfo "/api/v1/namespaces/tenant-ns/pods/my-pod/exec" "get" "exec" "my-pod")
          "/api/v1/namespaces/host-ns/pods/my-pod-x7f2/exec/") ∧
    (stringsSplit "/api/v1/namespaces/tenant-ns/pods/my-pod/exec")[6]? = some "my-pod" ∧
    (stringsSplit "/api/v1/namespaces/tenant-ns/pods/my-pod/exec").getLast? = some "exec" ∧
    ¬ ((stringsSplit "/api/v1/namespaces/tenant-ns/pods/my-pod/exec").length = 8 →
        6 + 1 = (stringsSplit "/api/v1/namespaces/tenant-ns/pods/my-pod/exec").length ∧
        (stringsSplit "/api/v1/namespaces/tenant-ns/pods/my-pod/exec").getLast? =
          (stringsSplit "/api/v1/namespaces/tenant-ns/pods/my-pod/exec")[6]?) := by
  refine ⟨by decide, by decide, by decide, by decide⟩

/-! ## Path layouts -/

theorem layout_seven (a b c d : String) :
    "/api/" ++ a ++ "/namespaces/" ++ b ++ "/" ++ c ++ "/" ++ d =
      stringsJoin ["", "api", a, "namespaces", b, c, d] := by
  apply String.ext
  simp only [String.data_append, stringsJoin, List.map_cons, List.map_nil, joinChars,
    List.append_assoc]
  rfl

theorem layout_eight (a b c d e : String) :
    "/api/" ++ a ++ "/namespaces/" ++ b ++ "/" ++ c ++ "/" ++ d ++ "/" ++ e =
      stringsJoin ["", "api", a, "namespaces", b, c, d, e] := by
  apply String.ext
  simp only [String.data_append, stringsJoin, List.map_cons, List.map_nil, joinChars,
    List.append_assoc]
  rfl

theorem stringsSplit_layout_seven (a b c d : String)
    (ha : '/' ∉ a.data) (hb : '/' ∉ b.data) (hc : '/' ∉ c.data) (hd : '/' ∉ d.data) :
    stringsSplit ("/api/" ++ a ++ "/namespaces/" ++ b ++ "/" ++ c ++ "/" ++ d) =
      ["", "api", a, "namespaces", b, c, d] := by
  rw [layout_seven]
  apply stringsSplit_stringsJoin _ (by simp)
  intro seg hseg
  simp only [List.mem_cons, List.mem_singleton, List.not_mem_nil, or_false] at hseg
  rcases hseg with h | h | h | h | h | h | h <;> subst h <;> first | assumption | decide

theorem stringsSplit_layout_eight (a b c d e : String)
    (ha : '/' ∉ a.data) (hb : '/' ∉ b.data) (hc : '/' ∉ c.data) (hd : '/' ∉ d.data)
    (he : '/' ∉ e.data) :
    stringsSplit ("/api/" ++ a ++ "/namespaces/" ++ b ++ "/" ++ c ++ "/" ++ d ++ "/" ++ e) =
      ["", "api", a, "namespaces", b, c, d, e] := by
  rw [layout_eight]
  apply stringsSplit_stringsJoin _ (by simp)
  intro seg hseg
  simp only [List.mem_cons, List.mem_singleton, List.not_mem_nil, or_false] at hseg
  rcases hseg with h | h | h | h | h | h | h | h <;> subst h <;> first | assumption | decide

/-- The layout the fixed indices 4 and 6 fit. On a
matched request with resource other than `nodes`, non-empty descriptor namespace
`ns` and passing admission, a path `/api/<v>/namespaces/<ns>/<resource>/<name>`
(tokens free of `/`) becomes
`/api/<v>/namespaces/<targetNamespace>/<resource>/<PhysicalName(name, ns)>`,
without trailing slash, and a path with one more token `<sub>` after the name
becomes `.../<PhysicalName(name, ns)>/<sub>/`, with one; the forwarded request
carries that path. -/
theorem core_layout_rewrite (env : Env) (req : Request) (info : RequestInfo)
    (v res name sub : String)
    (hinfo : req.info = some info) (happ : applies info env.resources = true)
    (hres : info.Resource ≠ "nodes") (hns : info.Namespace ≠ "")
    (hadm : (callAdmissionWebhooks env req info).2 = none)
    (hv : '/' ∉ v.data) (hn : '/' ∉ info.Namespace.data) (hr : '/' ∉ res.data)
    (hname : '/' ∉ name.data) (hsub : '/' ∉ sub.data) :
    (req.urlPath = "/api/" ++ v ++ "/namespaces/" ++ info.Namespace ++ "/" ++ res ++ "/" ++ name →
      rewriteRequestURL env info req =
        Rewritten.ok { req with
          urlPath := "/api/" ++ v ++ "/namespaces/" ++ env.targetNamespace ++ "/" ++ res ++ "/" ++
            env.PhysicalName name info.Namespace } ∧
      (env.HandlerErr = none →
        ∃ r, r.urlPath = "/api/" ++ v ++ "/namespaces/" ++ env.targetNamespace ++ "/" ++ res ++
              "/" ++ env.PhysicalName name info.Namespace ∧
          WithRedirect env req =
            (callAdmissionWebhooks env req info).1 ++ [Event.servePhysical r])) ∧
    (req.urlPath = "/api/" ++ v ++ "/namespaces/" ++ info.Namespace ++ "/" ++ res ++ "/" ++ name ++
        "/" ++ sub →
      rewriteRequestURL env info req =
        Rewritten.ok { req with
          urlPath := "/api/" ++ v ++ "/namespaces/" ++ env.targetNamespace ++ "/" ++ res ++ "/" ++
            env.PhysicalName name info.Namespace ++ "/" ++ sub ++ "/" } ∧
      (env.HandlerErr = none →
        ∃ r, r.urlPath = "/api/" ++ v ++ "/namespaces/" ++ env.targetNamespace ++ "/" ++ res ++
              "/" ++ env.PhysicalName name info.Namespace ++ "/" ++ sub ++ "/" ∧
          WithRedirect env req =
            (callAdmissionWebhooks env req info).1 ++ [Event.servePhysical r])) := by
  constructor
  · intro hpath
    have hsplit : stringsSplit req.urlPath =
        ["", "api", v, "namespaces", info.Namespace, res, name] := by
      rw [hpath]
      exact stringsSplit_layout_seven v info.Namespace res name hv hn hr hname
    have hrw := rewriteRequestURL_long env info req name hres hns (by rw [hsplit]; rfl)
    rw [hsplit] at hrw
    simp only [List.set_cons_succ, List.set_cons_zero, List.length_cons, List.length_nil] at hrw
    rw [← layout_seven] at hrw
    simp only [Nat.reduceAdd, Nat.reduceEqDiff, if_false, String.append_empty] at hrw
    exact ⟨hrw, fun hH => ⟨_, rfl, WithRedirect_forwarded env req _ info hinfo happ hadm hrw hH⟩⟩
  · intro hpath
    have hsplit : stringsSplit req.urlPath =
        ["", "api", v, "namespaces", info.Namespace, res, name, sub] := by
      rw [hpath]
      exact stringsSplit_layout_eight v info.Namespace res name sub hv hn hr hname hsub
    have hrw := rewriteRequestURL_long env info req name hres hns (by rw [hsplit]; rfl)
    rw [hsplit] at hrw
    simp only [List.set_cons_succ, List.set_cons_zero, List.length_cons, List.length_nil] at hrw
    rw [← layout_eight] at hrw
    simp only [Nat.reduceAdd, if_true] at hrw
    exact ⟨hrw, fun hH => ⟨_, rfl, WithRedirect_forwarded env req _ info hinfo happ hadm hrw hH⟩⟩

/-- A concrete instance, at the pod `my-pod` of `tenant-ns`:
the path for the pod itself and the path for its `log` sub-resource. -/
theorem core_layout_rewrite_witness :
    rewriteRequestURL sampleEnv
        (podInfo "/api/v1/namespaces/tenant-ns/pods/my-pod/log" "get" "log" "my-pod")
        (sampleRequest
          (podInfo "/api/v1/namespaces/tenant-ns/pods/my-pod/log" "get" "log" "my-pod")
          ("/api/" ++ "v1" ++ "/namespaces/" ++ "tenant-ns" ++ "/" ++ "pods" ++ "/" ++ "my-pod" ++
            "/" ++ "log")) =
      Rewritten.ok
        (sampleRequest
          (podInfo "/api/v1/namespaces/tenant-ns/pods/my-pod/log" "get" "log" "my-pod")
          ("/api/" ++ "v1" ++ "/namespaces/" ++ "host-ns" ++ "/" ++ "pods" ++ "/" ++
            samplePhysicalName "my-pod" "tenant-ns" ++ "/" ++ "log" ++ "/")) :=
  ((core_layout_rewrite sampleEnv
    (sampleRequest
      (podInfo "/api/v1/namespaces/tenant-ns/pods/my-pod/log" "get" "log" "my-pod")
      ("/api/" ++ "v1" ++ "/namespaces/" ++ "tenant-ns" ++ "/" ++ "pods" ++ "/" ++ "my-pod" ++
        "/" ++ "log"))
    (podInfo "/api/v1/namespaces/tenant-ns/pods/my-pod/log" "get" "log" "my-pod")
    "v1" "pods" "my-pod" "log" rfl (by decide) (by decide) (by decide) (by decide)
    (by decide) (by decide) (by decide) (by decide) (by decide)).2 rfl).1

theorem layout_grouped (g v ns res name : String) :
    "/apis/" ++ g ++ "/" ++ v ++ "/namespaces/" ++ ns ++ "/" ++ res ++ "/" ++ name =
      stringsJoin ["", "apis", g, v, "namespaces", ns, res, name] := by
  apply String.ext
  simp only [String.data_append, stringsJoin, List.map_cons, List.map_nil, joinChars,
    List.append_assoc]
  rfl

theorem layout_grouped_rewritten (g v t ns p name : String) :
    "/apis/" ++ g ++ "/" ++ v ++ "/" ++ t ++ "/" ++ ns ++ "/" ++ p ++ "/" ++ name =
      stringsJoin ["", "apis", g, v, t, ns, p, name] := by
  apply String.ext
  simp only [String.data_append, stringsJoin, List.map_cons, List.map_nil, joinChars,
    List.append_assoc]
  rfl

theorem stringsSplit_layout_grouped (g v ns res name : String)
    (hg : '/' ∉ g.data) (hv : '/' ∉ v.data) (hn : '/' ∉ ns.data) (hr : '/' ∉ res.data)
    (hname : '/' ∉ name.data) :
    stringsSplit ("/apis/" ++ g ++ "/" ++ v ++ "/namespaces/" ++ ns ++ "/" ++ res ++ "/" ++ name) =
      ["", "apis", g, v, "namespaces", ns, res, name] := by
  rw [layout_grouped]
  apply stringsSplit_stringsJoin _ (by simp)
  intro seg hseg
  simp only [List.mem_cons, List.mem_singleton, List.not_mem_nil, or_false] at hseg
  rcases hseg with h | h | h | h | h | h | h | h <;> subst h <;> first | assumption | decide

/-- What lines 48–66 do on every grouped path
`/apis/<g>/<v>/namespaces/<ns>/<resource>/<name>` (tokens free of `/`): the
token `namespaces` is replaced by the target namespace, the resource token by
`PhysicalName(resource, ns)`, and the tenant namespace and the name are kept,
so the result is
`/apis/<g>/<v>/<targetNamespace>/<ns>/<PhysicalName(resource, ns)>/<name>/`. -/
theorem grouped_layout_rewrite (env : Env) (req : Request) (info : RequestInfo)
    (g v res name : String)
    (hres : info.Resource ≠ "nodes") (hns : info.Namespace ≠ "")
    (hg : '/' ∉ g.data) (hv : '/' ∉ v.data) (hn : '/' ∉ info.Namespace.data)
    (hr : '/' ∉ res.data) (hname : '/' ∉ name.data)
    (hpath : req.urlPath =
      "/apis/" ++ g ++ "/" ++ v ++ "/namespaces/" ++ info.Namespace ++ "/" ++ res ++ "/" ++ name) :
    rewriteRequestURL env info req =
      Rewritten.ok { req with
        urlPath := "/apis/" ++ g ++ "/" ++ v ++ "/" ++ env.targetNamespace ++ "/" ++
          info.Namespace ++ "/" ++ env.PhysicalName res info.Namespace ++ "/" ++ name ++ "/" } := by
  have hsplit : stringsSplit req.urlPath =
      ["", "apis", g, v, "namespaces", info.Namespace, res, name] := by
    rw [hpath]
    exact stringsSplit_layout_grouped g v info.Namespace res name hg hv hn hr hname
  have hrw := rewriteRequestURL_long env info req res hres hns (by rw [hsplit]; rfl)
  rw [hsplit] at hrw
  simp only [List.set_cons_succ, List.set_cons_zero, List.length_cons, List.length_nil] at hrw
  rw [← layout_grouped_rewritten] at hrw
  simp only [Nat.reduceAdd, if_true] at hrw
  exact hrw

/-- Claim C2, at the input where the code departs from it. With
`PhysicalName("my-pod","tenant-ns") = "my-pod-x7f2"` and target namespace
`host-ns`, the grouped path `/apis/g/v1/namespaces/tenant-ns/pods/my-pod` of a
matched, admitted `pods` request is forwarded as
`/apis/g/v1/host-ns/tenant-ns/pods-x-tenant-ns/my-pod/`, not as
`/apis/g/v1/namespaces/host-ns/pods/my-pod-x7f2/`: index 4 holds the token
`namespaces` and index 6 the token `pods`, so the lines commented
`exchange namespace & name` keep the tenant namespace and the untranslated
name and overwrite two other segments. -/
theorem grouped_layout_misrewrite :
    samplePhysicalName "my-pod" "tenant-ns" = "my-pod-x7f2" ∧
    sampleEnv.targetNamespace = "host-ns" ∧
    applies { podInfo "/apis/g/v1/namespaces/tenant-ns/pods/my-pod" "get" "" "my-pod" with
        APIGroup := "g" } sampleEnv.resources = true ∧
    callAdmissionWebhooks sampleEnv
        (sampleRequest
          { podInfo "/apis/g/v1/namespaces/tenant-ns/pods/my-pod" "get" "" "my-pod" with
            APIGroup := "g" }
          "/apis/g/v1/namespaces/tenant-ns/pods/my-pod")
        { podInfo "/apis/g/v1/namespaces/tenant-ns/pods/my-pod" "get" "" "my-pod" with
          APIGroup := "g" } = ([], none) ∧
    WithRedirect sampleEnv
        (sampleRequest
          { podInfo "/apis/g/v1/namespaces/tenant-ns/pods/my-pod" "get" "" "my-pod" with
            APIGroup := "g" }
          "/apis/g/v1/namespaces/tenant-ns/pods/my-pod") =
      [Event.servePhysical
        { sampleRequest
            { podInfo "/apis/g/v1/namespaces/tenant-ns/pods/my-pod" "get" "" "my-pod" with
              APIGroup := "g" }
            "/apis/g/v1/host-ns/tenant-ns/pods-x-tenant-ns/my-pod/" with
          Header := [("Accept", ["text/plain"])] }] ∧
    rewriteRequestURL sampleEnv
        { podInfo "/apis/g/v1/namespaces/tenant-ns/pods/my-pod" "get" "" "my-pod" with
          APIGroup := "g" }
        (sampleRequest
          { podInfo "/apis/g/v1/namespaces/tenant-ns/pods/my-pod" "get" "" "my-pod" with
            APIGroup := "g" }
          "/apis/g/v1/namespaces/tenant-ns/pods/my-pod") ≠
      Rewritten.ok
        (sampleRequest
          { podInfo "/apis/g/v1/namespaces/tenant-ns/pods/my-pod" "get" "" "my-pod" with
            APIGroup := "g" }
          "/apis/g/v1/namespaces/host-ns/pods/my-pod-x7f2/") := by
  refine ⟨by decide, by decide, by decide, by decide, by decide, by decide⟩

end Redirect
